import Mathlib

/-!
Verification of the postcli send pipeline.

Shallow embedding of `postcli/contacts.py`, `postcli/links.py` and the
`send` command of `postcli/cli.py`.  CSV files are modelled structurally
(a header row plus a list of rows of cells, as produced by a CSV parser
with minimal quoting, which round-trips cell contents exactly); the
filesystem, SMTP transport and Jinja template engine are modelled as
oracles passed to the pipeline.  Python `str.strip`, `str.lower` and
single-character `str.replace` removals are modelled as list operations
on the characters of the string.
-/

namespace Postcli

/-- Python `str.strip()` on the character list of a string:
drop whitespace from both ends. -/
def pyStrip (s : String) : String :=
  ⟨(((s.data.dropWhile Char.isWhitespace).reverse.dropWhile Char.isWhitespace).reverse)⟩

/-- Python `str.lower()` (ASCII-adequate model). -/
def pyLower (s : String) : String :=
  ⟨s.data.map Char.toLower⟩

/-- Python `s.replace(c, "")` for a single character: remove every occurrence. -/
def removeChar (c : Char) (s : String) : String :=
  ⟨s.data.filter (fun a => a ≠ c)⟩

/-- Embeds `contacts._normalize_header`: lowercase, remove spaces, underscores,
hyphens, then strip. -/
def normalizeHeader (h : String) : String :=
  pyStrip (removeChar '-' (removeChar '_' (removeChar ' ' (pyLower h))))

/-- Embeds `contacts.NAME_ALIASES` (a frozenset in the source; membership is all
that is used). -/
def NAME_ALIASES : List String :=
  ["name", "fullname", "full_name", "contactname", "contact_name",
   "recipient", "firstname", "first_name"]

/-- Embeds `contacts.EMAIL_ALIASES`. -/
def EMAIL_ALIASES : List String :=
  ["email", "e-mail", "mail", "emailaddress", "email_address",
   "workemail", "work_email"]

/-- Embeds `contacts.COMPANY_ALIASES`. -/
def COMPANY_ALIASES : List String :=
  ["company", "companyname", "company_name", "organization", "org"]

/-- A canonical contact record: the dict `{name, company, email}` built by
`load_contacts` (exactly these three keys). -/
structure Contact where
  name : String
  company : String
  email : String
deriving DecidableEq, Repr

/-- A CSV file as seen through `csv.DictReader`: the header row and the
list of data rows (each a list of cells). -/
structure CSVFile where
  headers : List String
  rows : List (List String)
deriving DecidableEq, Repr

/-- The dict `csv.DictReader` builds for one data row: header keys paired
positionally with cells; a short row leaves the remaining keys at `None`
(`restval`), extra cells beyond the headers are dropped from this view
(they go under `restkey`, which the program never reads). -/
def dictRow (headers cells : List String) : List (String × Option String) :=
  headers.zip (cells.map some ++ List.replicate (headers.length - cells.length) none)

/-- Python `(row.get(k) or "")`: dict lookup (last binding wins, as in a
Python dict built from pairs) with `None`/missing/empty collapsing to `""`. -/
def rowGetStr (row : List (String × Option String)) (k : String) : String :=
  match row.reverse.find? (fun p => p.1 == k) with
  | some (_, some v) => v
  | _ => ""

/-- The column mapping built by `contacts._detect_column` while scanning
headers: canonical field name to original header, each set at most once. -/
structure ColAcc where
  email : Option String
  name : Option String
  company : Option String
deriving DecidableEq, Repr

/-- One pass of the header scan loop in `_detect_column`
(the `if`/`elif` chain, first match per canonical field wins). -/
def detectAux (acc : ColAcc) : List String → ColAcc
  | [] => acc
  | h :: t =>
    let n := normalizeHeader h
    if n ∈ EMAIL_ALIASES ∧ acc.email = none then
      detectAux { acc with email := some h } t
    else if n ∈ NAME_ALIASES ∧ acc.name = none then
      detectAux { acc with name := some h } t
    else if n ∈ COMPANY_ALIASES ∧ acc.company = none then
      detectAux { acc with company := some h } t
    else
      detectAux acc t

/-- Successful column detection: the email header (mandatory) plus the
optional name/company headers. -/
structure ColMap where
  email : String
  name : Option String
  company : Option String
deriving DecidableEq, Repr

/-- Errors raised by `load_contacts` (structured view of the `ValueError`
messages in the source; `MissingColumn` carries the accepted alias set and
the observed headers, exactly the data interpolated into the message). -/
inductive ContactsError where
  | MalformedInput
  | MissingColumn (aliases : List String) (headers : List String)
  | MissingField (row : Nat)
deriving DecidableEq, Repr

/-- Embeds `contacts._detect_column`: scan the headers, then fail when no email
column was mapped. -/
def detectColumn (headers : List String) : Except ContactsError ColMap :=
  match detectAux ⟨none, none, none⟩ headers with
  | ⟨none, _, _⟩ => .error (.MissingColumn EMAIL_ALIASES headers)
  | ⟨some e, n, c⟩ => .ok ⟨e, n, c⟩

/-- Equality of `Except` results is decidable (needed to evaluate the
model on concrete inputs). -/
instance {ε α : Type} [DecidableEq ε] [DecidableEq α] :
    DecidableEq (Except ε α) := fun a b =>
  match a, b with
  | .ok x, .ok y =>
    if h : x = y then .isTrue (by rw [h])
    else .isFalse (fun hh => h (Except.ok.inj hh))
  | .error x, .error y =>
    if h : x = y then .isTrue (by rw [h])
    else .isFalse (fun hh => h (Except.error.inj hh))
  | .ok _, .error _ => .isFalse (fun hh => Except.noConfusion hh)
  | .error _, .ok _ => .isFalse (fun hh => Except.noConfusion hh)

/-- The trimmed email value `load_contacts` extracts from one row. -/
def rowEmail (headers : List String) (cm : ColMap) (cells : List String) : String :=
  pyStrip (rowGetStr (dictRow headers cells) cm.email)

/-- The canonical record `load_contacts` builds for one row
(`cli` dict literal, lines 86-90 of `contacts.py`): name and company use
the mapped header, or the key `""` when unmapped (`col_map.get("name", "")`). -/
def recordOfRow (headers : List String) (cm : ColMap) (cells : List String) :
    Contact :=
  { name := pyStrip (rowGetStr (dictRow headers cells) (cm.name.getD ""))
  , company := pyStrip (rowGetStr (dictRow headers cells) (cm.company.getD ""))
  , email := rowEmail headers cm cells }

/-- The row loop of `load_contacts` (`for i, row in enumerate(rows, start=2)`):
`i` is the 1-based row number counting the header as row 1. -/
def loadRows (headers : List String) (cm : ColMap) :
    Nat → List (List String) → Except ContactsError (List Contact)
  | _, [] => .ok []
  | i, cells :: rest =>
    if rowEmail headers cm cells = "" then
      .error (.MissingField i)
    else do
      let tail ← loadRows headers cm (i + 1) rest
      .ok (recordOfRow headers cm cells :: tail)

/-- Embeds `contacts.load_contacts` on the parsed file content (file existence is
checked by the caller in the source and not modelled). -/
def loadContacts (file : CSVFile) : Except ContactsError (List Contact) :=
  if file.headers = [] then
    .error .MalformedInput
  else do
    let cm ← detectColumn file.headers
    loadRows file.headers cm 2 file.rows

/-- Embeds `contacts.write_contacts`: the file content written for a list of
canonical records (fixed header `name, company, email`). -/
def writeContacts (rows : List Contact) : CSVFile :=
  { headers := ["name", "company", "email"]
  , rows := rows.map (fun c => [c.name, c.company, c.email]) }

/-- One read event of the `contacted.csv` ledger scan: either a parsed row
(the `DictReader` dict view) or the first raised read error. -/
inductive ReadEvent where
  | row (r : List (String × Option String))
  | failure
deriving DecidableEq, Repr

/-- The row loop of `load_contacted_emails`, accumulating a set of emails
(modelled as a duplicate-free list in insertion order); any failure stops
the scan, keeping what was read so far (the `except: pass`). -/
def contactedLoop (acc : List String) : List ReadEvent → List String
  | [] => acc
  | .failure :: _ => acc
  | .row r :: t =>
    let email := pyStrip (rowGetStr r "email")
    if email = "" then contactedLoop acc t
    else if email ∈ acc then contactedLoop acc t
    else contactedLoop (acc ++ [email]) t

/-- Embeds `contacts.load_contacted_emails`: `none` models an absent ledger file
(returns the empty set); otherwise the stream of read events is folded
defensively. -/
def loadContactedEmails (ledger : Option (List ReadEvent)) : List String :=
  match ledger with
  | none => []
  | some evs => contactedLoop [] evs

/-- A JSON value as produced by `json.load` (numbers restricted to
integers; float contents are outside this model). -/
inductive Json where
  | null
  | bool (b : Bool)
  | num (n : Int)
  | str (s : String)
  | arr (l : List Json)
  | obj (l : List (String × Json))

/-- Lookup in the Python dict built from a JSON object (on duplicate keys
the last binding wins). -/
def jsonObjGet (l : List (String × Json)) (k : String) : Option Json :=
  (l.reverse.find? (fun p => p.1 == k)).map (fun p => p.2)

mutual

/-- Python `repr` of a JSON-decoded value (string escaping inside quotes
is not modelled; only shapes the program can print). -/
def pyRepr : Json → String
  | .null => "None"
  | .bool true => "True"
  | .bool false => "False"
  | .num n => toString n
  | .str s => "'" ++ s ++ "'"
  | .arr l => "[" ++ pyReprArr l ++ "]"
  | .obj l => "\x7b" ++ pyReprObj l ++ "\x7d"

/-- Comma-joined reprs of the elements of a list. -/
def pyReprArr : List Json → String
  | [] => ""
  | [j] => pyRepr j
  | j :: t => pyRepr j ++ ", " ++ pyReprArr t

/-- Comma-joined `key: value` reprs of the entries of a dict. -/
def pyReprObj : List (String × Json) → String
  | [] => ""
  | [(k, v)] => "'" ++ k ++ "': " ++ pyRepr v
  | (k, v) :: t => "'" ++ k ++ "': " ++ pyRepr v ++ ", " ++ pyReprObj t

end

/-- Python `str(x)` of a JSON-decoded value (identity on strings, `repr`
otherwise). -/
def pyStr (j : Json) : String :=
  match j with
  | .str s => s
  | j => pyRepr j

/-- The link context loaded from `links.json`: fixed schema of six string
fields. -/
structure Links where
  x : String
  linkedin : String
  github : String
  portfolio : String
  resume : String
  sender_name : String
deriving DecidableEq, Repr

/-- Embeds `links._empty_links`. -/
def emptyLinks : Links :=
  ⟨"", "", "", "", "", ""⟩

/-- What `load_links` finds: no `links.json` in any searched directory,
a file whose content fails to parse (`json.JSONDecodeError`), or a parsed
JSON value. -/
inductive LinksInput where
  | absent
  | unparseable
  | parsed (j : Json)

/-- The uncaught Python exception of `load_links`: `data.get` on a
non-dict raises `AttributeError`, which the `except (JSONDecodeError,
TypeError)` clause does not catch. -/
inductive LinksError where
  | attributeError
deriving DecidableEq, Repr

/-- Embeds `str(data.get(k, ""))` for one recognized key. -/
def linkField (l : List (String × Json)) (k : String) : String :=
  pyStr ((jsonObjGet l k).getD (.str ""))

/-- Embeds `links.load_links` on the found file content. -/
def loadLinks (input : LinksInput) : Except LinksError Links :=
  match input with
  | .absent => .ok emptyLinks
  | .unparseable => .ok emptyLinks
  | .parsed (.obj l) =>
    .ok { x := linkField l "x"
        , linkedin := linkField l "linkedin"
        , github := linkField l "github"
        , portfolio := linkField l "portfolio"
        , resume := linkField l "resume"
        , sender_name := linkField l "sender_name" }
  | .parsed _ => .error .attributeError

/-- Result of one per-message SMTP transaction in the send loop
(`smtplib.SMTPAuthenticationError` and every other exception both abort). -/
inductive SendResult where
  | ok
  | authError
  | sendError
deriving DecidableEq, Repr

/-- Result of the pre-loop SMTP verification connection (missing env
configuration, auth failure and connection failure all abort before any
send). -/
inductive ConnectResult where
  | ok
  | authError
  | connectError
deriving DecidableEq, Repr

/-- The CLI flags of the `send` command that the pipeline reads
(`--delay` and `--from-name` do not affect the modelled observables). -/
structure SendArgs where
  limit : Int
  skip_contacted : Bool
  mutate : Bool
  dry_run : Bool
deriving Repr

/-- The environment of one run: template compilation outcome, SMTP
verification outcome, the per-recipient render and transport oracles, and
the ledger content read by `load_contacted_emails`. -/
structure SendEnv where
  templateOk : Bool
  connect : ConnectResult
  render : Contact → Bool
  transport : Contact → SendResult
  contacted : List String

/-- Observables of the send loop: live-send attempts in order, successful
sends in order, and whether the loop raised (SystemExit / UndefinedError). -/
structure LoopResult where
  attempted : List Contact
  sent : List Contact
  aborted : Bool
deriving DecidableEq, Repr

/-- The `for i, contact in enumerate(rows)` loop of `send`: render both
templates (failure aborts), skip a blank address, in dry-run only display,
otherwise attempt the SMTP send (any failure aborts the run). -/
def sendLoop (env : SendEnv) (dryRun : Bool) : List Contact → LoopResult
  | [] => ⟨[], [], false⟩
  | c :: rest =>
    if ¬ env.render c then ⟨[], [], true⟩
    else if pyStrip c.email = "" then sendLoop env dryRun rest
    else if dryRun then sendLoop env dryRun rest
    else
      match env.transport c with
      | .ok =>
        let r := sendLoop env dryRun rest
        ⟨c :: r.attempted, c :: r.sent, r.aborted⟩
      | _ => ⟨[c], [], true⟩

/-- Observables of a whole `send` run: the loop observables, whether the
commit block ran, the rows appended to `contacted.csv`, and the new
content of the contacts file when it was rewritten (`none` = untouched). -/
structure SendOutput where
  attempted : List Contact
  sent : List Contact
  aborted : Bool
  committed : Bool
  ledgerAppend : List Contact
  rewritten : Option (List Contact)
deriving DecidableEq, Repr

/-- A run that ends early without touching any file. -/
def noopOutput (aborted : Bool) : SendOutput :=
  ⟨[], [], aborted, false, [], none⟩

/-- The `already_contacted` set of the run (`load_contacted_emails` result
if `--skip-contacted`, else the empty set). -/
def alreadyContacted (args : SendArgs) (env : SendEnv) : List String :=
  if args.skip_contacted then env.contacted else []

/-- The rows surviving the ledger filter (applied only when the
`already_contacted` set is non-empty, as in the source). -/
def filteredRows (args : SendArgs) (env : SendEnv) (rows0 : List Contact) :
    List Contact :=
  if alreadyContacted args env = [] then rows0
  else rows0.filter (fun r => ¬ (alreadyContacted args env).contains r.email)

/-- The rows the loop iterates: the filtered rows truncated to `--limit`
when positive (`rows = rows[:limit]`). -/
def processedRows (args : SendArgs) (env : SendEnv) (rows0 : List Contact) :
    List Contact :=
  let rows1 := filteredRows args env rows0
  if args.limit > 0 then rows1.take args.limit.toNat else rows1

/-- The end of the run after the send loop: an aborted loop propagates the
exception (no commit); otherwise the commit block runs exactly when
`not dry_run and sent and mutate`, appending `sent` to the ledger and
rewriting the contacts file with the non-sent rows of the PROCESSED list
(`remaining = [c for c in rows if ...]` at `cli.py:177` filters the
truncated `rows`, not the full loaded list). -/
def commitPhase (args : SendArgs) (rows : List Contact) (r : LoopResult) :
    SendOutput :=
  if r.aborted then
    ⟨r.attempted, r.sent, true, false, [], none⟩
  else if ¬ args.dry_run ∧ r.sent ≠ [] ∧ args.mutate then
    ⟨r.attempted, r.sent, false, true, r.sent,
     some (rows.filter
       (fun c => ¬ (r.sent.map (fun s => s.email)).contains c.email))⟩
  else
    ⟨r.attempted, r.sent, false, false, [], none⟩

/-- The `send` command from just after `load_contacts` to the end
(`cli.py` lines 77-179), on the loaded records `rows0`. -/
def sendPipeline (args : SendArgs) (env : SendEnv) (rows0 : List Contact) :
    SendOutput :=
  if rows0 = [] then noopOutput false
  else if alreadyContacted args env ≠ [] ∧ filteredRows args env rows0 = [] then
    noopOutput false
  else if ¬ env.templateOk then noopOutput true
  else if ¬ args.dry_run ∧ env.connect ≠ .ok then noopOutput true
  else
    commitPhase args (processedRows args env rows0)
      (sendLoop env args.dry_run (processedRows args env rows0))

/-- A full run starting from the contacts file content: `load_contacts`
followed by the pipeline (a load failure exits with no side effect). -/
def sendCommand (args : SendArgs) (env : SendEnv) (file : CSVFile) :
    SendOutput :=
  match loadContacts file with
  | .error _ => noopOutput true
  | .ok rows0 => sendPipeline args env rows0

/-! ### Helper lemmas -/

theorem dropWhile_head_false {p : Char → Bool} {l : List Char} {a : Char}
    (h : (l.dropWhile p).head? = some a) : p a = false := by
  induction l with
  | nil => simp at h
  | cons b t ih =>
    by_cases hb : p b
    · rw [List.dropWhile_cons_of_pos hb] at h
      exact ih h
    · rw [List.dropWhile_cons_of_neg hb] at h
      simp at h
      rw [← h]
      exact Bool.eq_false_iff.mpr hb

theorem dropWhile_eq_self_of_head {p : Char → Bool} {l : List Char}
    (h : ∀ a, l.head? = some a → p a = false) : l.dropWhile p = l := by
  cases l with
  | nil => rfl
  | cons b t =>
    have hb : p b = false := h b rfl
    exact List.dropWhile_cons_of_neg (by simp [hb])

theorem stripData_idem (l : List Char) :
    ((((((l.dropWhile Char.isWhitespace).reverse.dropWhile
        Char.isWhitespace).reverse).dropWhile
        Char.isWhitespace).reverse.dropWhile Char.isWhitespace).reverse) =
      ((l.dropWhile Char.isWhitespace).reverse.dropWhile
        Char.isWhitespace).reverse := by
  set ws := Char.isWhitespace with hws
  set u := l.dropWhile ws with hu
  set v := u.reverse.dropWhile ws with hv
  -- step 1: v.reverse has no leading whitespace
  have step1 : v.reverse.dropWhile ws = v.reverse := by
    apply dropWhile_eq_self_of_head
    intro a ha
    rw [List.head?_reverse] at ha
    obtain ⟨s, hs⟩ := List.dropWhile_suffix (l := u.reverse) ws
    rw [← hv] at hs
    have h1 : u.reverse.getLast? = some a := by
      rw [← hs, List.getLast?_append, ha]
      rfl
    have h2 : u.head? = some a := by
      have h3 := List.head?_reverse u.reverse
      rw [List.reverse_reverse] at h3
      rw [h3]
      exact h1
    exact dropWhile_head_false (p := ws) (l := l) (by rw [← hu]; exact h2)
  rw [step1, List.reverse_reverse]
  -- step 2: v itself has no leading whitespace
  have step2 : v.dropWhile ws = v := by
    apply dropWhile_eq_self_of_head
    intro a ha
    rw [hv] at ha
    exact dropWhile_head_false (p := ws) (l := u.reverse) ha
  rw [step2]

/-- Trimming is idempotent: `pyStrip` is a fixed point operation. -/
theorem pyStrip_idem (s : String) : pyStrip (pyStrip s) = pyStrip s :=
  congrArg String.mk (stripData_idem s.data)

theorem pyStrip_empty : pyStrip "" = "" := rfl

/-- The header scan never sets the email column when no header normalizes
into the email alias set. -/
theorem detectAux_email_of_no_alias (hs : List String) :
    ∀ acc : ColAcc, (∀ h ∈ hs, normalizeHeader h ∉ EMAIL_ALIASES) →
      (detectAux acc hs).email = acc.email := by
  induction hs with
  | nil => intro acc _; rfl
  | cons h t ih =>
    intro acc hno
    have hh : normalizeHeader h ∉ EMAIL_ALIASES := hno h (by simp)
    have ht : ∀ x ∈ t, normalizeHeader x ∉ EMAIL_ALIASES := by
      intro x hx; exact hno x (by simp [hx])
    unfold detectAux
    rw [if_neg (by simp [hh])]
    by_cases h2 : normalizeHeader h ∈ NAME_ALIASES ∧ acc.name = none
    · rw [if_pos h2]; exact ih _ ht
    · rw [if_neg h2]
      by_cases h3 : normalizeHeader h ∈ COMPANY_ALIASES ∧ acc.company = none
      · rw [if_pos h3]; exact ih _ ht
      · rw [if_neg h3]; exact ih _ ht

/-- Keys of the `DictReader` row dict all come from the header row. -/
theorem dictRow_key_mem {headers cells : List String}
    {p : String × Option String} (hp : p ∈ dictRow headers cells) :
    p.1 ∈ headers := by
  unfold dictRow at hp
  exact (List.of_mem_zip hp).1

/-- Looking up a key that is not a header yields `""`. -/
theorem rowGetStr_of_not_header {headers cells : List String} {k : String}
    (hk : k ∉ headers) : rowGetStr (dictRow headers cells) k = "" := by
  unfold rowGetStr
  rcases hf : (dictRow headers cells).reverse.find? (fun p => p.1 == k) with _ | q
  · rw [hf]
  · exfalso
    have hq := List.find?_some hf
    have hmem : q ∈ (dictRow headers cells).reverse := List.mem_of_find?_eq_some hf
    rw [List.mem_reverse] at hmem
    have : q.1 = k := by simpa using hq
    exact hk (this ▸ dictRow_key_mem hmem)

/-- The row loop succeeds, producing one canonical record per data row in
order, when every row has non-blank email. -/
theorem loadRows_ok {headers : List String} {cm : ColMap}
    {rows : List (List String)}
    (hall : ∀ cells ∈ rows, rowEmail headers cm cells ≠ "") (i : Nat) :
    loadRows headers cm i rows = .ok (rows.map (recordOfRow headers cm)) := by
  induction rows generalizing i with
  | nil => rfl
  | cons cells rest ih =>
    have h1 : rowEmail headers cm cells ≠ "" := hall cells (by simp)
    have h2 : ∀ c ∈ rest, rowEmail headers cm c ≠ "" := by
      intro c hc; exact hall c (by simp [hc])
    unfold loadRows
    rw [if_neg h1, ih h2]
    rfl

/-- The row loop fails with the 1-based row number of the first blank
email. -/
theorem loadRows_error {headers : List String} {cm : ColMap}
    {pre : List (List String)} {bad : List String}
    {post : List (List String)}
    (hpre : ∀ cells ∈ pre, rowEmail headers cm cells ≠ "")
    (hbad : rowEmail headers cm bad = "") (i : Nat) :
    loadRows headers cm i (pre ++ bad :: post) =
      .error (.MissingField (i + pre.length)) := by
  induction pre generalizing i with
  | nil =>
    unfold loadRows
    simp [hbad]
  | cons c pre' ih =>
    have h1 : rowEmail headers cm c ≠ "" := hpre c (by simp)
    have h2 : ∀ x ∈ pre', rowEmail headers cm x ≠ "" := by
      intro x hx; exact hpre x (by simp [hx])
    show loadRows headers cm i ((c :: pre') ++ bad :: post) = _
    rw [List.cons_append]
    unfold loadRows
    rw [if_neg h1, ih h2]
    show Except.error (ContactsError.MissingField (i + 1 + pre'.length)) =
      Except.error (ContactsError.MissingField (i + (c :: pre').length))
    have hlen : i + 1 + pre'.length = i + (c :: pre').length := by
      simp only [List.length_cons]
      omega
    rw [hlen]

/-- Everything the row loop returns is a `recordOfRow` of some row. -/
theorem loadRows_mem {headers : List String} {cm : ColMap}
    {rows : List (List String)} {i : Nat} {recs : List Contact}
    (h : loadRows headers cm i rows = .ok recs) :
    ∀ r ∈ recs, ∃ cells, r = recordOfRow headers cm cells := by
  induction rows generalizing i recs with
  | nil =>
    unfold loadRows at h
    cases h
    intro r hr
    simp at hr
  | cons cells rest ih =>
    unfold loadRows at h
    by_cases hb : rowEmail headers cm cells = ""
    · rw [if_pos hb] at h; cases h
    · rw [if_neg hb] at h
      rcases ht : loadRows headers cm (i + 1) rest with e | tail
      · rw [ht] at h; cases h
      · rw [ht] at h
        cases h
        intro r hr
        rcases List.mem_cons.mp hr with h1 | h1
        · exact ⟨cells, h1⟩
        · exact ih ht r h1

/-! ### C4 — loadContacts success shape -/

/-- Claim C4 (counterexample to the claim as stated): a file whose header row
has an email-alias column and an empty-string header, with every data row
carrying a non-blank email.  The name and company columns are unmapped
(`detect_column` finds neither), yet the returned record's name and company
are the trimmed value of the empty-string column, not `""`: in the source
`col_map.get("name", "")` falls back to the key `""`, which `row.get`
resolves against the `""` header. -/
theorem c4_counterexample :
    detectColumn ["email", ""] = .ok ⟨"email", none, none⟩ ∧
    loadContacts ⟨["email", ""], [["a@b", "Bob"]]⟩ =
      .ok [⟨"Bob", "Bob", "a@b"⟩] := by
  constructor
  · decide
  · decide

/-- Claim C4 (amended): for every contact file whose headers resolve to a
column mapping (equivalently: some header normalizes into the email alias
set), whose every data row has a non-blank email after trimming, and
— forced by the counterexample — none of whose headers is the empty
string, `loadContacts` succeeds; every returned record has non-empty
email, record `i` carries exactly the trimmed email of data row `i`
(hence records come in original file order), and name/company are the
empty string whenever their column is unmapped, and also whenever the
column is mapped but row `i` has an empty (or missing) cell under it. -/
theorem c4_loadContacts_ok (file : CSVFile) (cm : ColMap)
    (hcm : detectColumn file.headers = .ok cm)
    (hrows : ∀ cells ∈ file.rows, rowEmail file.headers cm cells ≠ "")
    (hnh : "" ∉ file.headers) :
    ∃ recs, loadContacts file = .ok recs ∧
      recs.map (fun r => r.email) = file.rows.map (rowEmail file.headers cm) ∧
      (∀ r ∈ recs, r.email ≠ "") ∧
      (cm.name = none → ∀ r ∈ recs, r.name = "") ∧
      (cm.company = none → ∀ r ∈ recs, r.company = "") ∧
      (∀ col, cm.name = some col →
        ∀ i (hi : i < recs.length) (hj : i < file.rows.length),
        rowGetStr (dictRow file.headers (file.rows.get ⟨i, hj⟩)) col = "" →
        (recs.get ⟨i, hi⟩).name = "") ∧
      (∀ col, cm.company = some col →
        ∀ i (hi : i < recs.length) (hj : i < file.rows.length),
        rowGetStr (dictRow file.headers (file.rows.get ⟨i, hj⟩)) col = "" →
        (recs.get ⟨i, hi⟩).company = "") := by
  have hne : file.headers ≠ [] := by
    intro h
    rw [h] at hcm
    cases hcm
  refine ⟨file.rows.map (recordOfRow file.headers cm), ?_, ?_, ?_, ?_, ?_, ?_, ?_⟩
  · unfold loadContacts
    rw [if_neg hne, hcm]
    exact loadRows_ok hrows 2
  · rw [List.map_map]
    rfl
  · intro r hr
    obtain ⟨cells, hcells, rfl⟩ := List.mem_map.mp hr
    exact hrows cells hcells
  · intro hname r hr
    obtain ⟨cells, hcells, rfl⟩ := List.mem_map.mp hr
    show pyStrip (rowGetStr (dictRow file.headers cells) (cm.name.getD "")) = ""
    rw [hname]
    show pyStrip (rowGetStr (dictRow file.headers cells) "") = ""
    rw [rowGetStr_of_not_header hnh]
    rfl
  · intro hcomp r hr
    obtain ⟨cells, hcells, rfl⟩ := List.mem_map.mp hr
    show pyStrip (rowGetStr (dictRow file.headers cells) (cm.company.getD "")) = ""
    rw [hcomp]
    show pyStrip (rowGetStr (dictRow file.headers cells) "") = ""
    rw [rowGetStr_of_not_header hnh]
    rfl
  · intro col hcol i hi hj hcell
    have hget : (file.rows.map (recordOfRow file.headers cm)).get ⟨i, hi⟩ =
        recordOfRow file.headers cm (file.rows.get ⟨i, hj⟩) := by
      simp only [List.get_eq_getElem, List.getElem_map]
    rw [hget]
    show pyStrip (rowGetStr (dictRow file.headers (file.rows.get ⟨i, hj⟩))
      (cm.name.getD "")) = ""
    rw [hcol]
    show pyStrip (rowGetStr (dictRow file.headers (file.rows.get ⟨i, hj⟩))
      col) = ""
    rw [hcell]
    rfl
  · intro col hcol i hi hj hcell
    have hget : (file.rows.map (recordOfRow file.headers cm)).get ⟨i, hi⟩ =
        recordOfRow file.headers cm (file.rows.get ⟨i, hj⟩) := by
      simp only [List.get_eq_getElem, List.getElem_map]
    rw [hget]
    show pyStrip (rowGetStr (dictRow file.headers (file.rows.get ⟨i, hj⟩))
      (cm.company.getD "")) = ""
    rw [hcol]
    show pyStrip (rowGetStr (dictRow file.headers (file.rows.get ⟨i, hj⟩))
      col) = ""
    rw [hcell]
    rfl

/-- Witness for the amended C4 at a concrete file with a mapped name
column whose first cell is empty (and an unmapped company column). -/
theorem c4_witness :
    detectColumn ["Name", "Work Email"] = .ok ⟨"Work Email", some "Name", none⟩ ∧
    (∀ cells ∈ [["", " a@b "], ["Ada", "c@d"]],
      rowEmail ["Name", "Work Email"] ⟨"Work Email", some "Name", none⟩
        cells ≠ "") ∧
    "" ∉ ["Name", "Work Email"] ∧
    ∃ recs,
      loadContacts ⟨["Name", "Work Email"], [["", " a@b "], ["Ada", "c@d"]]⟩ =
        .ok recs ∧
      recs.map (fun r => r.email) =
        [["", " a@b "], ["Ada", "c@d"]].map
          (rowEmail ["Name", "Work Email"] ⟨"Work Email", some "Name", none⟩) ∧
      (∀ r ∈ recs, r.email ≠ "") ∧
      ((⟨"Work Email", some "Name", none⟩ : ColMap).name = none →
        ∀ r ∈ recs, r.name = "") ∧
      ((⟨"Work Email", some "Name", none⟩ : ColMap).company = none →
        ∀ r ∈ recs, r.company = "") ∧
      (∀ col, (⟨"Work Email", some "Name", none⟩ : ColMap).name = some col →
        ∀ i (hi : i < recs.length)
          (hj : i < ([["", " a@b "], ["Ada", "c@d"]] :
            List (List String)).length),
        rowGetStr (dictRow ["Name", "Work Email"]
          (([["", " a@b "], ["Ada", "c@d"]] :
            List (List String)).get ⟨i, hj⟩)) col = "" →
        (recs.get ⟨i, hi⟩).name = "") ∧
      (∀ col, (⟨"Work Email", some "Name", none⟩ : ColMap).company = some col →
        ∀ i (hi : i < recs.length)
          (hj : i < ([["", " a@b "], ["Ada", "c@d"]] :
            List (List String)).length),
        rowGetStr (dictRow ["Name", "Work Email"]
          (([["", " a@b "], ["Ada", "c@d"]] :
            List (List String)).get ⟨i, hj⟩)) col = "" →
        (recs.get ⟨i, hi⟩).company = "") :=
  ⟨by decide, by decide, by decide,
   c4_loadContacts_ok ⟨["Name", "Work Email"], [["", " a@b "], ["Ada", "c@d"]]⟩
     ⟨"Work Email", some "Name", none⟩ (by decide) (by decide) (by decide)⟩

/-! ### C5 — blank email row number -/

/-- Claim C5: for every contact file whose columns resolve and whose rows
split as `pre ++ bad :: post` with every row of `pre` carrying a non-blank
email and `bad` a blank one, `loadContacts` fails with `MissingField`
citing row `2 + pre.length` — the 1-based file row of `bad`, the header
counting as row 1. -/
theorem c5_missing_field_row (file : CSVFile) (cm : ColMap)
    (pre : List (List String)) (bad : List String) (post : List (List String))
    (hcm : detectColumn file.headers = .ok cm)
    (hrows : file.rows = pre ++ bad :: post)
    (hpre : ∀ cells ∈ pre, rowEmail file.headers cm cells ≠ "")
    (hbad : rowEmail file.headers cm bad = "") :
    loadContacts file = .error (.MissingField (2 + pre.length)) := by
  have hne : file.headers ≠ [] := by
    intro h
    rw [h] at hcm
    cases hcm
  unfold loadContacts
  rw [if_neg hne, hcm, hrows]
  exact loadRows_error hpre hbad 2

/-- Witness for C5: the blank-email second data row is reported as row 3. -/
theorem c5_witness :
    detectColumn ["Email"] = .ok ⟨"Email", none, none⟩ ∧
    [["x@y"], ["  "], ["z@w"]] = [["x@y"]] ++ ["  "] :: [["z@w"]] ∧
    (∀ cells ∈ [["x@y"]], rowEmail ["Email"] ⟨"Email", none, none⟩ cells ≠ "") ∧
    rowEmail ["Email"] ⟨"Email", none, none⟩ ["  "] = "" ∧
    loadContacts ⟨["Email"], [["x@y"], ["  "], ["z@w"]]⟩ =
      .error (.MissingField 3) :=
  ⟨by decide, by decide, by decide, by decide,
   c5_missing_field_row ⟨["Email"], [["x@y"], ["  "], ["z@w"]]⟩
     ⟨"Email", none, none⟩ [["x@y"]] ["  "] [["z@w"]]
     (by decide) (by decide) (by decide) (by decide)⟩

/-! ### C6 — missing email column -/

/-- Claim C6: for every contact file with a non-empty header row none of
whose headers normalizes into the email alias set, `loadContacts` fails
with a `MissingColumn` error carrying both the accepted email alias set
and the observed headers (the data interpolated into the source's
message). -/
theorem c6_missing_column (file : CSVFile)
    (h1 : file.headers ≠ [])
    (h2 : ∀ h ∈ file.headers, normalizeHeader h ∉ EMAIL_ALIASES) :
    loadContacts file = .error (.MissingColumn EMAIL_ALIASES file.headers) := by
  unfold loadContacts
  rw [if_neg h1]
  have hd : detectColumn file.headers =
      .error (.MissingColumn EMAIL_ALIASES file.headers) := by
    have e := detectAux_email_of_no_alias file.headers ⟨none, none, none⟩ h2
    unfold detectColumn
    rcases hacc : detectAux ⟨none, none, none⟩ file.headers with ⟨em, nm, cp⟩
    rw [hacc] at e
    simp at e
    rw [e]
  rw [hd]
  rfl

/-- Witness for C6 at a concrete header row. -/
theorem c6_witness :
    ((["Full Name", "Organization"] : List String) ≠ []) ∧
    (∀ h ∈ ["Full Name", "Organization"],
      normalizeHeader h ∉ EMAIL_ALIASES) ∧
    loadContacts ⟨["Full Name", "Organization"], [["Ada", "Acme"]]⟩ =
      .error (.MissingColumn EMAIL_ALIASES ["Full Name", "Organization"]) :=
  ⟨by decide, by decide,
   c6_missing_column ⟨["Full Name", "Organization"], [["Ada", "Acme"]]⟩
     (by decide) (by decide)⟩

/-! ### C7 — defensive ledger reads -/

theorem contactedLoop_stop (rs : List (List (String × Option String))) :
    ∀ (acc : List String) (post : List ReadEvent),
      contactedLoop acc (rs.map .row ++ .failure :: post) =
        contactedLoop acc (rs.map .row) := by
  induction rs with
  | nil => intro acc post; rfl
  | cons r rs' ih =>
    intro acc post
    rw [List.map_cons, List.cons_append]
    unfold contactedLoop
    by_cases h1 : pyStrip (rowGetStr r "email") = ""
    · rw [if_pos h1, if_pos h1]
      exact ih acc post
    · rw [if_neg h1, if_neg h1]
      by_cases h2 : pyStrip (rowGetStr r "email") ∈ acc
      · rw [if_pos h2, if_pos h2]
        exact ih acc post
      · rw [if_neg h2, if_neg h2]
        exact ih _ post

/-- Claim C7: `loadContactedEmails` is total (an absent ledger yields the
empty set), and a read failure after any prefix of well-read rows yields
exactly the emails collected from that prefix — whatever follows the
failure is never seen. -/
theorem c7_ledger_best_effort :
    loadContactedEmails none = [] ∧
    ∀ (rs : List (List (String × Option String))) (post : List ReadEvent),
      loadContactedEmails (some (rs.map .row ++ .failure :: post)) =
        loadContactedEmails (some (rs.map .row)) := by
  refine ⟨rfl, ?_⟩
  intro rs post
  exact contactedLoop_stop rs [] post

/-- Witness for C7: one valid row, then a malformed row, then another
valid row — the result is the single email read before the failure. -/
theorem c7_witness :
    loadContactedEmails
      (some ([[("email", some " a@b ")]].map .row ++
        .failure :: [.row [("email", some "c@d")]])) =
      loadContactedEmails (some ([[("email", some " a@b ")]].map .row)) ∧
    loadContactedEmails
      (some ([[("email", some " a@b ")]].map .row ++
        .failure :: [.row [("email", some "c@d")]])) = ["a@b"] :=
  ⟨c7_ledger_best_effort.2 [[("email", some " a@b ")]]
    [.row [("email", some "c@d")]], by decide⟩

/-! ### C9 — write/load round trip -/

/-- Claim C9 (counterexample to the claim as stated): a record whose name
has surrounding whitespace does not survive the round trip — `loadContacts`
trims every field, so the reloaded record differs from the input. -/
theorem c9_counterexample :
    loadContacts (writeContacts [⟨" Bob ", "", "a@b"⟩]) =
      .ok [⟨"Bob", "", "a@b"⟩] ∧
    loadContacts (writeContacts [⟨" Bob ", "", "a@b"⟩]) ≠
      .ok [⟨" Bob ", "", "a@b"⟩] := by
  constructor
  · decide
  · decide

/-- Claim C9 (amended): the round trip is the identity on every list of
records whose three fields are already whitespace-trimmed and whose email
is non-empty (the counterexample forces the trimming proviso; a blank
email would make the reload fail outright). -/
theorem c9_roundtrip (rows : List Contact)
    (h : ∀ c ∈ rows, pyStrip c.name = c.name ∧ pyStrip c.company = c.company ∧
      pyStrip c.email = c.email ∧ c.email ≠ "") :
    loadContacts (writeContacts rows) = .ok rows := by
  have key : ∀ (rs : List Contact),
      (∀ c ∈ rs, pyStrip c.name = c.name ∧ pyStrip c.company = c.company ∧
        pyStrip c.email = c.email ∧ c.email ≠ "") →
      ∀ i, loadRows ["name", "company", "email"]
        ⟨"email", some "name", some "company"⟩ i
        (rs.map (fun c => [c.name, c.company, c.email])) = .ok rs := by
    intro rs
    induction rs with
    | nil => intro _ _; rfl
    | cons c rs' ih =>
      intro hall i
      have hc := hall c (by simp)
      have hrest : ∀ x ∈ rs', pyStrip x.name = x.name ∧
          pyStrip x.company = x.company ∧ pyStrip x.email = x.email ∧
          x.email ≠ "" := by
        intro x hx; exact hall x (by simp [hx])
      rw [List.map_cons]
      unfold loadRows
      have hre : rowEmail ["name", "company", "email"]
          ⟨"email", some "name", some "company"⟩
          [c.name, c.company, c.email] = c.email := by
        show pyStrip c.email = c.email
        exact hc.2.2.1
      rw [hre, if_neg hc.2.2.2, ih hrest (i + 1)]
      have hr : recordOfRow ["name", "company", "email"]
          ⟨"email", some "name", some "company"⟩
          [c.name, c.company, c.email] = c := by
        show (⟨pyStrip c.name, pyStrip c.company, pyStrip c.email⟩ : Contact) = c
        rw [hc.1, hc.2.1, hc.2.2.1]
      rw [hr]
      rfl
  have hH : (writeContacts rows).headers = ["name", "company", "email"] := rfl
  unfold loadContacts
  rw [hH, if_neg (by decide : ¬ ((["name", "company", "email"] : List String) = [])),
    (by decide : detectColumn ["name", "company", "email"] =
      .ok ⟨"email", some "name", some "company"⟩)]
  exact key rows h 2

/-- Witness for the amended C9. -/
theorem c9_witness :
    (∀ c ∈ [(⟨"Bob", "Acme", "a@b"⟩ : Contact), ⟨"", "", "c@d"⟩],
      pyStrip c.name = c.name ∧ pyStrip c.company = c.company ∧
      pyStrip c.email = c.email ∧ c.email ≠ "") ∧
    loadContacts (writeContacts [⟨"Bob", "Acme", "a@b"⟩, ⟨"", "", "c@d"⟩]) =
      .ok [⟨"Bob", "Acme", "a@b"⟩, ⟨"", "", "c@d"⟩] :=
  ⟨by decide, c9_roundtrip [⟨"Bob", "Acme", "a@b"⟩, ⟨"", "", "c@d"⟩] (by decide)⟩

/-! ### C10 — canonical records are trimmed -/

/-- Claim C10: every record `loadContacts` returns is fixed by trimming on
all three of its fields (the record type itself carries exactly the three
canonical keys). -/
theorem c10_fields_trimmed (file : CSVFile) (recs : List Contact)
    (h : loadContacts file = .ok recs) :
    ∀ r ∈ recs, pyStrip r.name = r.name ∧ pyStrip r.company = r.company ∧
      pyStrip r.email = r.email := by
  unfold loadContacts at h
  by_cases hne : file.headers = []
  · rw [if_pos hne] at h; cases h
  · rw [if_neg hne] at h
    rcases hd : detectColumn file.headers with e | cm
    · rw [hd] at h; cases h
    · rw [hd] at h
      have h2 : loadRows file.headers cm 2 file.rows = .ok recs := h
      intro r hr
      obtain ⟨cells, rfl⟩ := loadRows_mem h2 r hr
      exact ⟨pyStrip_idem _, pyStrip_idem _, pyStrip_idem _⟩

/-- Witness for C10 on a concrete padded file. -/
theorem c10_witness :
    loadContacts ⟨["Name", "E-Mail"], [["  Ada  ", " a@b "]]⟩ =
      .ok [⟨"Ada", "", "a@b"⟩] ∧
    (∀ r ∈ [(⟨"Ada", "", "a@b"⟩ : Contact)],
      pyStrip r.name = r.name ∧ pyStrip r.company = r.company ∧
      pyStrip r.email = r.email) :=
  ⟨by decide,
   c10_fields_trimmed ⟨["Name", "E-Mail"], [["  Ada  ", " a@b "]]⟩
     [⟨"Ada", "", "a@b"⟩] (by decide)⟩

/-! ### C8 — link loading -/

theorem linkField_none {l : List (String × Json)} {k : String}
    (h : jsonObjGet l k = none) : linkField l k = "" := by
  unfold linkField
  rw [h]
  rfl

theorem linkField_str {l : List (String × Json)} {k s : String}
    (h : jsonObjGet l k = some (.str s)) : linkField l k = s := by
  unfold linkField
  rw [h]
  rfl

/-- Claim C8 (counterexample to the claim as stated): a links file whose
content is valid JSON but not an object — here the array `[]` — makes
`load_links` raise: `data.get` on a list raises `AttributeError`, which
the `except (json.JSONDecodeError, TypeError)` clause does not catch, so
the error propagates and the run fails. -/
theorem c8_counterexample :
    loadLinks (.parsed (.arr [])) = .error .attributeError ∧
    loadLinks (.parsed .null) = .error .attributeError := by
  exact ⟨rfl, rfl⟩

/-- Claim C8 (amended): `loadLinks` returns the all-empty-string context for
an absent or unparseable file, and for any JSON object each of the six
keys is read independently and coerced to string, defaulting to the empty
string when absent; only a parsed non-object value (the counterexample)
escapes as an error. -/
theorem c8_loadLinks :
    loadLinks .absent = .ok emptyLinks ∧
    loadLinks .unparseable = .ok emptyLinks ∧
    ∀ l : List (String × Json), ∃ links,
      loadLinks (.parsed (.obj l)) = .ok links ∧
      (jsonObjGet l "x" = none → links.x = "") ∧
      (∀ s, jsonObjGet l "x" = some (.str s) → links.x = s) ∧
      (jsonObjGet l "linkedin" = none → links.linkedin = "") ∧
      (∀ s, jsonObjGet l "linkedin" = some (.str s) → links.linkedin = s) ∧
      (jsonObjGet l "github" = none → links.github = "") ∧
      (∀ s, jsonObjGet l "github" = some (.str s) → links.github = s) ∧
      (jsonObjGet l "portfolio" = none → links.portfolio = "") ∧
      (∀ s, jsonObjGet l "portfolio" = some (.str s) → links.portfolio = s) ∧
      (jsonObjGet l "resume" = none → links.resume = "") ∧
      (∀ s, jsonObjGet l "resume" = some (.str s) → links.resume = s) ∧
      (jsonObjGet l "sender_name" = none → links.sender_name = "") ∧
      (∀ s, jsonObjGet l "sender_name" = some (.str s) →
        links.sender_name = s) := by
  refine ⟨rfl, rfl, ?_⟩
  intro l
  refine ⟨_, rfl, ?_, ?_, ?_, ?_, ?_, ?_, ?_, ?_, ?_, ?_, ?_, ?_⟩ <;>
    first
      | (intro h; exact linkField_none h)
      | (intro s h; exact linkField_str h)

/-- Witness for the amended C8 on a concrete object with one present
string key, one non-string key, and the rest absent. -/
theorem c8_witness :
    ∃ links,
      loadLinks (.parsed (.obj
        [("x", .str "at-a"), ("resume", .num 5)])) = .ok links ∧
      (jsonObjGet [("x", .str "at-a"), ("resume", .num 5)] "x" = none →
        links.x = "") ∧
      (∀ s, jsonObjGet [("x", .str "at-a"), ("resume", .num 5)] "x" =
        some (.str s) → links.x = s) ∧
      (jsonObjGet [("x", .str "at-a"), ("resume", .num 5)] "linkedin" =
        none → links.linkedin = "") ∧
      (∀ s, jsonObjGet [("x", .str "at-a"), ("resume", .num 5)]
        "linkedin" = some (.str s) → links.linkedin = s) ∧
      (jsonObjGet [("x", .str "at-a"), ("resume", .num 5)] "github" =
        none → links.github = "") ∧
      (∀ s, jsonObjGet [("x", .str "at-a"), ("resume", .num 5)] "github" =
        some (.str s) → links.github = s) ∧
      (jsonObjGet [("x", .str "at-a"), ("resume", .num 5)] "portfolio" =
        none → links.portfolio = "") ∧
      (∀ s, jsonObjGet [("x", .str "at-a"), ("resume", .num 5)]
        "portfolio" = some (.str s) → links.portfolio = s) ∧
      (jsonObjGet [("x", .str "at-a"), ("resume", .num 5)] "resume" =
        none → links.resume = "") ∧
      (∀ s, jsonObjGet [("x", .str "at-a"), ("resume", .num 5)] "resume" =
        some (.str s) → links.resume = s) ∧
      (jsonObjGet [("x", .str "at-a"), ("resume", .num 5)] "sender_name" =
        none → links.sender_name = "") ∧
      (∀ s, jsonObjGet [("x", .str "at-a"), ("resume", .num 5)]
        "sender_name" = some (.str s) → links.sender_name = s) :=
  c8_loadLinks.2.2 [("x", .str "at-a"), ("resume", .num 5)]

/-! ### Pipeline lemmas -/

theorem processedRows_nil (args : SendArgs) (env : SendEnv) :
    processedRows args env [] = [] := by
  unfold processedRows filteredRows
  split_ifs <;> simp

theorem processedRows_of_filtered_nil (args : SendArgs) (env : SendEnv)
    (rows0 : List Contact) (h : filteredRows args env rows0 = []) :
    processedRows args env rows0 = [] := by
  unfold processedRows
  rw [h]
  split_ifs <;> simp

/-- The send loop in live mode up to the first transport failure: the
attempted recipients are exactly the non-blank-address prefix plus the
failing one, the successes are that prefix, and the loop aborts. -/
theorem sendLoop_abort (env : SendEnv) (pre : List Contact) (c : Contact)
    (post : List Contact)
    (hpre : ∀ r ∈ pre, env.render r = true ∧
      (pyStrip r.email ≠ "" → env.transport r = .ok))
    (hc1 : env.render c = true) (hc2 : pyStrip c.email ≠ "")
    (hc3 : env.transport c ≠ .ok) :
    sendLoop env false (pre ++ c :: post) =
      ⟨pre.filter (fun r => pyStrip r.email != "") ++ [c],
       pre.filter (fun r => pyStrip r.email != ""), true⟩ := by
  induction pre with
  | nil =>
    rw [List.nil_append, List.filter_nil, List.nil_append]
    unfold sendLoop
    rw [if_neg (not_not_intro hc1), if_neg hc2,
      if_neg (by simp : ¬ ((false : Bool) = true))]
    rcases ht : env.transport c with _ | _ | _
    · exact absurd ht hc3
    · rfl
    · rfl
  | cons a pre' ih =>
    have ha := hpre a (by simp)
    have hpre' : ∀ r ∈ pre', env.render r = true ∧
        (pyStrip r.email ≠ "" → env.transport r = .ok) := by
      intro r hr; exact hpre r (by simp [hr])
    rw [List.cons_append]
    unfold sendLoop
    rw [if_neg (not_not_intro ha.1)]
    by_cases he : pyStrip a.email = ""
    · rw [if_pos he, ih hpre',
        List.filter_cons_of_neg (by rw [bne_iff_ne]; exact not_not_intro he)]
    · rw [if_neg he, if_neg (by simp : ¬ ((false : Bool) = true))]
      have ht : env.transport a = .ok := ha.2 he
      simp only [ht]
      rw [ih hpre',
        List.filter_cons_of_pos (by rw [bne_iff_ne]; exact he)]
      rfl

/-! ### C1 — limit and the commit rewrite -/

/-- Claim C1 (code evaluated at the failing input): three valid contacts,
`limit = 2`, live mode, `mutate` on, every send succeeding.  The pipeline
does process exactly the first two records, but the commit rewrites the
contacts file from the TRUNCATED list: the new file content is `some []`,
so the third record is dropped from the contacts file instead of being
left untouched. -/
theorem c1_code_behavior :
    sendPipeline ⟨2, false, true, false⟩
      ⟨true, .ok, fun _ => true, fun _ => .ok, []⟩
      [⟨"A", "", "a@x.com"⟩, ⟨"B", "", "b@x.com"⟩, ⟨"C", "", "c@x.com"⟩] =
      ⟨[⟨"A", "", "a@x.com"⟩, ⟨"B", "", "b@x.com"⟩],
       [⟨"A", "", "a@x.com"⟩, ⟨"B", "", "b@x.com"⟩],
       false, true,
       [⟨"A", "", "a@x.com"⟩, ⟨"B", "", "b@x.com"⟩],
       some []⟩ := by
  decide

/-! ### C2 — when the commit step runs -/

/-- Claim C2 (counterexample to the claim as stated): two contacts, live
mode, `mutate` on; the first send succeeds and the second fails.  At
least one send succeeded, dry-run was off and the mutate flag was set,
yet the run aborts before the commit step: no ledger append, no rewrite. -/
theorem c2_counterexample :
    sendPipeline ⟨0, false, true, false⟩
      ⟨true, .ok, fun _ => true,
        fun c => if c.email = "b@x.com" then .sendError else .ok, []⟩
      [⟨"A", "", "a@x.com"⟩, ⟨"B", "", "b@x.com"⟩] =
      ⟨[⟨"A", "", "a@x.com"⟩, ⟨"B", "", "b@x.com"⟩],
       [⟨"A", "", "a@x.com"⟩],
       true, false, [], none⟩ := by
  decide

/-- Case analysis of the phase after the loop: commit runs exactly on a
non-aborted loop with `not dry_run and sent and mutate`, and dry runs
never touch a file. -/
theorem commitPhase_cases (args : SendArgs) (rows : List Contact)
    (r : LoopResult) :
    ((commitPhase args rows r).committed = true ↔
      ((commitPhase args rows r).sent ≠ [] ∧ args.dry_run = false ∧
        args.mutate = true ∧ (commitPhase args rows r).aborted = false)) ∧
    (args.dry_run = true →
      (commitPhase args rows r).ledgerAppend = [] ∧
      (commitPhase args rows r).rewritten = none) := by
  unfold commitPhase
  by_cases hab : r.aborted = true
  · rw [if_pos hab]
    exact ⟨by simp, fun _ => ⟨rfl, rfl⟩⟩
  · rw [if_neg hab]
    by_cases hcond : ¬ args.dry_run ∧ r.sent ≠ [] ∧ args.mutate
    · rw [if_pos hcond]
      obtain ⟨hd, hs, hm⟩ := hcond
      refine ⟨⟨fun _ => ⟨hs, ?_, hm, rfl⟩, fun _ => rfl⟩, fun hdry => ?_⟩
      · simpa using hd
      · exact (hd hdry).elim
    · rw [if_neg hcond]
      refine ⟨⟨fun h => absurd h Bool.false_ne_true, ?_⟩,
        fun _ => ⟨rfl, rfl⟩⟩
      rintro ⟨hs, hd, hm, _⟩
      exact absurd ⟨by simp [hd], hs, hm⟩ hcond

/-- Claim C2 (amended): the commit step runs if and only if at least one
send succeeded, dry-run was off, the mutate flag was set AND the run was
not aborted (a transport or render failure after a success skips the
commit — the counterexample); and a dry run never appends to the ledger
nor rewrites the contacts file. -/
theorem c2_commit_iff (args : SendArgs) (env : SendEnv)
    (rows0 : List Contact) :
    ((sendPipeline args env rows0).committed = true ↔
      ((sendPipeline args env rows0).sent ≠ [] ∧ args.dry_run = false ∧
        args.mutate = true ∧ (sendPipeline args env rows0).aborted = false)) ∧
    (args.dry_run = true →
      (sendPipeline args env rows0).ledgerAppend = [] ∧
      (sendPipeline args env rows0).rewritten = none) := by
  unfold sendPipeline
  split_ifs with h1 h2 h3 h4 <;>
    first
      | exact commitPhase_cases args _ _
      | simp [noopOutput]

/-- Witness for the amended C2 (dry-run input: no commit, no mutation). -/
theorem c2_witness :
    ((sendPipeline ⟨0, false, true, true⟩
        ⟨true, .ok, fun _ => true, fun _ => .ok, []⟩
        [⟨"A", "", "a@x.com"⟩]).committed = true ↔
      ((sendPipeline ⟨0, false, true, true⟩
         ⟨true, .ok, fun _ => true, fun _ => .ok, []⟩
         [⟨"A", "", "a@x.com"⟩]).sent ≠ [] ∧
        (⟨0, false, true, true⟩ : SendArgs).dry_run = false ∧
        (⟨0, false, true, true⟩ : SendArgs).mutate = true ∧
        (sendPipeline ⟨0, false, true, true⟩
          ⟨true, .ok, fun _ => true, fun _ => .ok, []⟩
          [⟨"A", "", "a@x.com"⟩]).aborted = false)) ∧
    ((⟨0, false, true, true⟩ : SendArgs).dry_run = true →
      (sendPipeline ⟨0, false, true, true⟩
        ⟨true, .ok, fun _ => true, fun _ => .ok, []⟩
        [⟨"A", "", "a@x.com"⟩]).ledgerAppend = [] ∧
      (sendPipeline ⟨0, false, true, true⟩
        ⟨true, .ok, fun _ => true, fun _ => .ok, []⟩
        [⟨"A", "", "a@x.com"⟩]).rewritten = none) :=
  c2_commit_iff ⟨0, false, true, true⟩
    ⟨true, .ok, fun _ => true, fun _ => .ok, []⟩
    [⟨"A", "", "a@x.com"⟩]

/-! ### C3 — abort on transport failure -/

/-- Claim C3: in live mode (template valid, verification connect ok), if
the processed list splits as `pre ++ c :: post` where every recipient of
`pre` renders and sends fine and `c` renders, has a non-blank address and
fails to send, then the run aborts: the attempted recipients are exactly
the non-blank prefix plus `c` (nobody after `c` is attempted), the
ledger is not appended to and the contacts file is not rewritten. -/
theorem c3_abort_on_failure (args : SendArgs) (env : SendEnv)
    (rows0 pre : List Contact) (c : Contact) (post : List Contact)
    (hdry : args.dry_run = false)
    (htpl : env.templateOk = true)
    (hconn : env.connect = .ok)
    (hproc : processedRows args env rows0 = pre ++ c :: post)
    (hpre : ∀ r ∈ pre, env.render r = true ∧
      (pyStrip r.email ≠ "" → env.transport r = .ok))
    (hc1 : env.render c = true) (hc2 : pyStrip c.email ≠ "")
    (hc3 : env.transport c ≠ .ok) :
    (sendPipeline args env rows0).aborted = true ∧
    (sendPipeline args env rows0).attempted =
      pre.filter (fun r => pyStrip r.email != "") ++ [c] ∧
    (sendPipeline args env rows0).sent =
      pre.filter (fun r => pyStrip r.email != "") ∧
    (sendPipeline args env rows0).committed = false ∧
    (sendPipeline args env rows0).ledgerAppend = [] ∧
    (sendPipeline args env rows0).rewritten = none := by
  have hne : processedRows args env rows0 ≠ [] := by
    rw [hproc]; simp
  have h0 : rows0 ≠ [] := by
    intro h
    exact hne (by rw [h]; exact processedRows_nil args env)
  have h1 : ¬ (alreadyContacted args env ≠ [] ∧
      filteredRows args env rows0 = []) := by
    rintro ⟨_, hf⟩
    exact hne (processedRows_of_filtered_nil args env rows0 hf)
  have hout : sendPipeline args env rows0 =
      commitPhase args (processedRows args env rows0)
        (sendLoop env args.dry_run (processedRows args env rows0)) := by
    unfold sendPipeline
    rw [if_neg h0, if_neg h1, if_neg (not_not_intro htpl),
      if_neg (by simp [hconn])]
  rw [hout, hdry, hproc,
    sendLoop_abort env pre c post hpre hc1 hc2 hc3]
  unfold commitPhase
  rw [if_pos rfl]
  exact ⟨rfl, rfl, rfl, rfl, rfl, rfl⟩

/-- Witness for C3: second of three recipients fails; only the first was
sent, the third is never attempted, no file is touched. -/
theorem c3_witness :
    ((⟨0, false, true, false⟩ : SendArgs).dry_run = false) ∧
    (processedRows ⟨0, false, true, false⟩
      ⟨true, .ok, fun _ => true,
        fun c => if c.email = "b@x.com" then .sendError else .ok, []⟩
      [⟨"A", "", "a@x.com"⟩, ⟨"B", "", "b@x.com"⟩, ⟨"C", "", "c@x.com"⟩] =
      [⟨"A", "", "a@x.com"⟩] ++ ⟨"B", "", "b@x.com"⟩ ::
        [⟨"C", "", "c@x.com"⟩]) ∧
    ((sendPipeline ⟨0, false, true, false⟩
      ⟨true, .ok, fun _ => true,
        fun c => if c.email = "b@x.com" then .sendError else .ok, []⟩
      [⟨"A", "", "a@x.com"⟩, ⟨"B", "", "b@x.com"⟩,
       ⟨"C", "", "c@x.com"⟩]).aborted = true ∧
     (sendPipeline ⟨0, false, true, false⟩
      ⟨true, .ok, fun _ => true,
        fun c => if c.email = "b@x.com" then .sendError else .ok, []⟩
      [⟨"A", "", "a@x.com"⟩, ⟨"B", "", "b@x.com"⟩,
       ⟨"C", "", "c@x.com"⟩]).attempted =
      [⟨"A", "", "a@x.com"⟩].filter (fun r => pyStrip r.email != "") ++
        [⟨"B", "", "b@x.com"⟩] ∧
     (sendPipeline ⟨0, false, true, false⟩
      ⟨true, .ok, fun _ => true,
        fun c => if c.email = "b@x.com" then .sendError else .ok, []⟩
      [⟨"A", "", "a@x.com"⟩, ⟨"B", "", "b@x.com"⟩,
       ⟨"C", "", "c@x.com"⟩]).sent =
      [⟨"A", "", "a@x.com"⟩].filter (fun r => pyStrip r.email != "") ∧
     (sendPipeline ⟨0, false, true, false⟩
      ⟨true, .ok, fun _ => true,
        fun c => if c.email = "b@x.com" then .sendError else .ok, []⟩
      [⟨"A", "", "a@x.com"⟩, ⟨"B", "", "b@x.com"⟩,
       ⟨"C", "", "c@x.com"⟩]).committed = false ∧
     (sendPipeline ⟨0, false, true, false⟩
      ⟨true, .ok, fun _ => true,
        fun c => if c.email = "b@x.com" then .sendError else .ok, []⟩
      [⟨"A", "", "a@x.com"⟩, ⟨"B", "", "b@x.com"⟩,
       ⟨"C", "", "c@x.com"⟩]).ledgerAppend = [] ∧
     (sendPipeline ⟨0, false, true, false⟩
      ⟨true, .ok, fun _ => true,
        fun c => if c.email = "b@x.com" then .sendError else .ok, []⟩
      [⟨"A", "", "a@x.com"⟩, ⟨"B", "", "b@x.com"⟩,
       ⟨"C", "", "c@x.com"⟩]).rewritten = none) :=
  ⟨rfl, by decide,
   c3_abort_on_failure ⟨0, false, true, false⟩
     ⟨true, .ok, fun _ => true,
       fun c => if c.email = "b@x.com" then .sendError else .ok, []⟩
     [⟨"A", "", "a@x.com"⟩, ⟨"B", "", "b@x.com"⟩, ⟨"C", "", "c@x.com"⟩]
     [⟨"A", "", "a@x.com"⟩] ⟨"B", "", "b@x.com"⟩ [⟨"C", "", "c@x.com"⟩]
     rfl rfl rfl (by decide) (by decide) (by decide) (by decide)
     (by decide)⟩

end Postcli
